import Mathlib

open scoped List

/-!
# Verification of the optimistic message reconciliation state of `Message.tsx`

Shallow embedding of the message-related state and handlers of
`src/src/Components/Message.tsx` (the variant with optimistic messages).

The React component's state hooks become the fields of `MessageState`; each
handler becomes a state-transition function.  Asynchronous transport results
(`conversation.send`, `conversation.messages()`) are passed in as oracle
arguments: a `Bool` saying whether the transport send resolved or rejected,
and the list of confirmed messages a history fetch returned.  Timestamps
(`Date.now()` / `new Date()`) are milliseconds, modelled as `Nat`.
-/

/-- The `status` field of the component's `OptimisticMessage` interface:
`"unpublished" | "published" | "failed"`. -/
inductive MsgStatus where
  | unpublished
  | published
  | failed
deriving DecidableEq

/-- A message of the authoritative history (an element of the
`conversationMessages` state): the component reads its `id`, `content`,
`senderAddress` and `sent` fields. -/
structure ConfirmedMessage where
  id : String
  content : String
  senderAddress : String
  sent : Nat
deriving DecidableEq

/-- The component's `OptimisticMessage` interface. -/
structure OptimisticMessage where
  id : String
  content : String
  senderAddress : String
  status : MsgStatus
  sentAt : Nat
deriving DecidableEq

/-- An element of the rendered `allMessages` array: confirmed messages are
spread unchanged (their `status` is absent, here `none`), optimistic messages
are mapped to `{id, content, senderAddress, sent := sentAt, status}`. -/
structure DisplayMessage where
  id : String
  content : String
  senderAddress : String
  sent : Nat
  status : Option MsgStatus
deriving DecidableEq

/-- The message-related state hooks of the `Message` component.  The active
conversation is an opaque handle (`Option Nat`); `accountIdentifier` keeps
only the `identifier` string the handlers read. -/
structure MessageState where
  conversationMessages : List ConfirmedMessage
  optimisticMessages : List OptimisticMessage
  activeConversation : Option Nat
  messageContent : String
  accountIdentifier : Option String
  isSending : Bool
deriving DecidableEq

/-- The display projection of a confirmed message (spread unchanged into
`allMessages`; it carries no `status`). -/
def confirmedToDisplay (m : ConfirmedMessage) : DisplayMessage :=
  { id := m.id, content := m.content, senderAddress := m.senderAddress,
    sent := m.sent, status := none }

/-- The display projection of an optimistic message, as in
`optimisticMessages.map((msg) => ({id, content, senderAddress,
sent: msg.sentAt, status: msg.status}))`. -/
def optimisticToDisplay (m : OptimisticMessage) : DisplayMessage :=
  { id := m.id, content := m.content, senderAddress := m.senderAddress,
    sent := m.sentAt, status := some m.status }

/-- The unsorted concatenation `[...conversationMessages,
...optimisticMessages.map(...)]` that `allMessages` sorts. -/
def displayInput (s : MessageState) : List DisplayMessage :=
  s.conversationMessages.map confirmedToDisplay ++
    s.optimisticMessages.map optimisticToDisplay

/-- Insert `a` before the first element whose `sent` is `≥ a.sent`. -/
def insertByTime (a : DisplayMessage) : List DisplayMessage → List DisplayMessage
  | [] => [a]
  | b :: l => if a.sent ≤ b.sent then a :: b :: l else b :: insertByTime a l

/-- Stable sort by the `sent` timestamp, ascending.  This models
`.sort((a, b) => new Date(a.sent).getTime() - new Date(b.sent).getTime())`:
ECMAScript's `Array.prototype.sort` is required to be stable, and a stable
sort by a fixed key is a unique function, so any stable sort computes it. -/
def sortByTime : List DisplayMessage → List DisplayMessage
  | [] => []
  | a :: l => insertByTime a (sortByTime l)

/-- The component's `allMessages` value: confirmed then optimistic messages,
stably sorted by timestamp. -/
def allMessages (s : MessageState) : List DisplayMessage :=
  sortByTime (displayInput s)

/-- The handler `loadMessages(conversation)` on a successful
`conversation.messages()` fetch: replace `conversationMessages` with the fetched history and drop every
optimistic message whose status is `"published"`. -/
def loadMessages (s : MessageState) (fetched : List ConfirmedMessage) :
    MessageState :=
  { s with
    conversationMessages := fetched,
    optimisticMessages :=
      s.optimisticMessages.filter (fun m => m.status != MsgStatus.published) }

/-- The body of the `streamMessages` loop for one streamed `message`: append
it to `conversationMessages` unless a confirmed or an optimistic message with
the same `id` is already present. -/
def streamDeliver (s : MessageState) (message : ConfirmedMessage) :
    MessageState :=
  if !(s.conversationMessages.any (fun m => m.id == message.id)) &&
      !(s.optimisticMessages.any (fun m => m.id == message.id)) then
    { s with conversationMessages := s.conversationMessages ++ [message] }
  else s

/-- The temp id `` `optimistic-${Date.now()}` `` of a send at time `now`. -/
def tempIdOf (now : Nat) : String := "optimistic-" ++ Nat.repr now

/-- The status-update pattern `prev.map((msg) => msg.id === mid ?
{...msg, status: st} : msg)` used by `sendMessage` and `retryFailedMessage`. -/
def markStatus (ms : List OptimisticMessage) (mid : String) (st : MsgStatus) :
    List OptimisticMessage :=
  ms.map (fun m => if m.id == mid then { m with status := st } else m)

/-- The truthiness test `!messageContent.trim()` of the `sendMessage` guard:
a JavaScript string trims to the empty string exactly when every one of its
characters is whitespace. -/
def isBlank (s : String) : Bool := s.data.all Char.isWhitespace

/-- The synchronous prefix of `sendMessage`: the guard
`if (!activeConversation || !messageContent.trim() || isSending) return;`,
then `setIsSending(true)`, the construction of the optimistic message with a
fresh `tempId` and status `"unpublished"`, its optimistic append, and
`setMessageContent("")`.  `none` is the guard's early return: nothing is
inserted and no transport send is started. -/
def sendStart (s : MessageState) (now : Nat) :
    Option (String × MessageState) :=
  if s.activeConversation.isNone || isBlank s.messageContent ||
      s.isSending then
    none
  else
    some (tempIdOf now,
      { s with
        isSending := true,
        optimisticMessages := s.optimisticMessages ++
          [{ id := tempIdOf now, content := s.messageContent,
             senderAddress := s.accountIdentifier.getD "",
             status := MsgStatus.unpublished, sentAt := now }],
        messageContent := "" })

/-- The continuation of `sendMessage` after `activeConversation.send`
resolves (`sendOk = true`: mark the message `"published"` and run
`loadMessages` on the refetched history) or rejects (`sendOk = false`: mark
it `"failed"`), followed by the `finally` block's `setIsSending(false)`. -/
def sendFinish (s : MessageState) (tempId : String) (sendOk : Bool)
    (fetched : List ConfirmedMessage) : MessageState :=
  let s' :=
    if sendOk then
      loadMessages
        { s with
          optimisticMessages :=
            markStatus s.optimisticMessages tempId MsgStatus.published }
        fetched
    else
      { s with
        optimisticMessages :=
          markStatus s.optimisticMessages tempId MsgStatus.failed }
  { s' with isSending := false }

/-- One complete `sendMessage` invocation at time `now`, with the transport
outcome `sendOk` and, on success, the history `fetched` returned by the
refresh.  Returns the temp id together with the resulting state, or `none`
when the guard rejected the call. -/
def sendMessage (s : MessageState) (now : Nat) (sendOk : Bool)
    (fetched : List ConfirmedMessage) : Option (String × MessageState) :=
  match sendStart s now with
  | none => none
  | some (tempId, s1) => some (tempId, sendFinish s1 tempId sendOk fetched)

/-- The handler `retryFailedMessage(messageId)`: look the message up by id only
(`optimisticMessages.find((msg) => msg.id === messageId)`); silently return
when it is absent or no conversation is active; otherwise mark it
`"unpublished"`, re-send, and mark it `"published"` (then refresh) or
`"failed"` exactly as `sendMessage` does. -/
def retryFailedMessage (s : MessageState) (messageId : String) (sendOk : Bool)
    (fetched : List ConfirmedMessage) : MessageState :=
  match s.optimisticMessages.find? (fun m => m.id == messageId) with
  | none => s
  | some _ =>
    if s.activeConversation.isNone then s
    else
      let s1 := { s with
        optimisticMessages :=
          markStatus s.optimisticMessages messageId MsgStatus.unpublished }
      if sendOk then
        loadMessages
          { s1 with
            optimisticMessages :=
              markStatus s1.optimisticMessages messageId MsgStatus.published }
          fetched
      else
        { s1 with
          optimisticMessages :=
            markStatus s1.optimisticMessages messageId MsgStatus.failed }

/-- The handler `cancelFailedMessage(messageId)`: filter the message out of
`optimisticMessages` by id, with no status check. -/
def cancelFailedMessage (s : MessageState) (messageId : String) :
    MessageState :=
  { s with
    optimisticMessages :=
      s.optimisticMessages.filter (fun m => m.id != messageId) }

/-- The handler `createNewDM` (successful path): make the new conversation active, then run
`loadMessages` on it, `fetched` being what the new conversation's
`messages()` returned. -/
def createNewDM (s : MessageState) (conv : Nat)
    (fetched : List ConfirmedMessage) : MessageState :=
  loadMessages { s with activeConversation := some conv } fetched

/-! ## Concrete states used by counterexamples and witnesses -/

/-- A confirmed message `"hi"` from `"alice"` at time 100. -/
def cHi : ConfirmedMessage :=
  { id := "net-1", content := "hi", senderAddress := "alice", sent := 100 }

/-- A failed optimistic message `"hi"` from `"alice"` created at time 50. -/
def pHi : OptimisticMessage :=
  { id := "optimistic-50", content := "hi", senderAddress := "alice",
    status := MsgStatus.failed, sentAt := 50 }

/-- A state whose failed pending message matches the confirmed message `cHi`
on content and sender, with `cHi.sent = 100 ≥ 50 = pHi.sentAt`. -/
def sC1 : MessageState :=
  { conversationMessages := [cHi], optimisticMessages := [pHi],
    activeConversation := some 1, messageContent := "",
    accountIdentifier := some "alice", isSending := false }

/-- Two confirmed messages with equal timestamps whose ids are in reverse
lexical order in the history. -/
def cB2 : ConfirmedMessage :=
  { id := "m-b", content := "x", senderAddress := "alice", sent := 100 }

def cA2 : ConfirmedMessage :=
  { id := "m-a", content := "y", senderAddress := "bob", sent := 100 }

def sC2 : MessageState :=
  { conversationMessages := [cB2, cA2], optimisticMessages := [],
    activeConversation := some 1, messageContent := "",
    accountIdentifier := some "alice", isSending := false }

/-- A failed pending message created under the conversation of `sC3`. -/
def pFailed3 : OptimisticMessage :=
  { id := "optimistic-7", content := "bye", senderAddress := "alice",
    status := MsgStatus.failed, sentAt := 7 }

def sC3 : MessageState :=
  { conversationMessages :=
      [{ id := "old-1", content := "old", senderAddress := "bob", sent := 3 }],
    optimisticMessages := [pFailed3],
    activeConversation := some 1, messageContent := "",
    accountIdentifier := some "alice", isSending := false }

/-- A state ready to send the non-blank content `"hello"`. -/
def sC4 : MessageState :=
  { conversationMessages := [], optimisticMessages := [],
    activeConversation := some 1, messageContent := "hello",
    accountIdentifier := some "alice", isSending := false }

/-- An unpublished (not failed) pending message. -/
def pUnpub5 : OptimisticMessage :=
  { id := "optimistic-9", content := "hi", senderAddress := "alice",
    status := MsgStatus.unpublished, sentAt := 9 }

def sC5 : MessageState :=
  { conversationMessages := [], optimisticMessages := [pUnpub5],
    activeConversation := some 1, messageContent := "",
    accountIdentifier := some "alice", isSending := false }

/-- An unpublished (not failed) pending message with id `"optimistic-3"`. -/
def pUnpub6 : OptimisticMessage :=
  { id := "optimistic-3", content := "x", senderAddress := "alice",
    status := MsgStatus.unpublished, sentAt := 3 }

def sC6 : MessageState :=
  { conversationMessages := [], optimisticMessages := [pUnpub6],
    activeConversation := some 1, messageContent := "",
    accountIdentifier := some "alice", isSending := false }

/-- A fresh conversation about to send content `"a"`. -/
def sC7 : MessageState :=
  { conversationMessages := [], optimisticMessages := [],
    activeConversation := some 1, messageContent := "a",
    accountIdentifier := some "alice", isSending := false }

/-- A state whose draft content is whitespace only. -/
def sC8blank : MessageState :=
  { conversationMessages := [], optimisticMessages := [],
    activeConversation := some 1, messageContent := "   ",
    accountIdentifier := some "alice", isSending := false }

/-- A state with non-blank content but a send already in flight. -/
def sC8sending : MessageState :=
  { conversationMessages := [], optimisticMessages := [],
    activeConversation := some 1, messageContent := "hello",
    accountIdentifier := some "alice", isSending := true }

/-- A streamed confirmed message not yet present in `sC9`. -/
def mC9 : ConfirmedMessage :=
  { id := "net-9", content := "yo", senderAddress := "bob", sent := 40 }

def sC9 : MessageState :=
  { conversationMessages :=
      [{ id := "net-8", content := "prev", senderAddress := "alice",
         sent := 30 }],
    optimisticMessages := [],
    activeConversation := some 1, messageContent := "",
    accountIdentifier := some "alice", isSending := false }

/-! ## Decimal rendering

`tempIdOf` interpolates `Date.now()` in decimal (`Nat.repr`).  To reason
about which timestamps render equally we relate `Nat.repr` to a fuel-free
digit-list function and give the latter a left inverse. -/

/-- The decimal digit characters of `n`, most significant first: the
fuel-free form of `Nat.toDigits 10 n`. -/
def decChars (n : Nat) : List Char :=
  if _h : n < 10 then [Nat.digitChar n]
  else decChars (n / 10) ++ [Nat.digitChar (n % 10)]
termination_by n
decreasing_by exact Nat.div_lt_self (by omega) (by omega)

/-- The numeric value of a decimal digit character. -/
def charDigitVal (c : Char) : Nat := c.toNat - 48

/-- The number a digit-character list denotes in decimal. -/
def decValue (l : List Char) : Nat :=
  l.foldl (fun acc c => 10 * acc + charDigitVal c) 0

theorem digitChar_val : ∀ d, d < 10 → charDigitVal (Nat.digitChar d) = d := by
  decide

theorem decValue_append (l : List Char) (c : Char) :
    decValue (l ++ [c]) = 10 * decValue l + charDigitVal c := by
  simp [decValue, List.foldl_append]

theorem toDigitsCore_eq_decChars :
    ∀ (fuel n : Nat) (acc : List Char), n < fuel →
      Nat.toDigitsCore 10 fuel n acc = decChars n ++ acc := by
  intro fuel
  induction fuel with
  | zero => exact fun n acc h => absurd h (Nat.not_lt_zero n)
  | succ fuel ih =>
    intro n acc h
    rw [Nat.toDigitsCore]
    by_cases h10 : n < 10
    · have hdiv : n / 10 = 0 := Nat.div_eq_of_lt h10
      rw [decChars]
      simp [hdiv, h10, Nat.mod_eq_of_lt h10]
    · have hdiv : ¬ n / 10 = 0 := by
        intro h0
        exact h10 (by omega)
      have hlt : n / 10 < fuel := by
        have h1 : n / 10 < n := Nat.div_lt_self (by omega) (by omega)
        omega
      rw [decChars]
      simp only [h10, dite_false, hdiv, ite_false]
      rw [ih (n / 10) _ hlt, List.append_assoc, List.singleton_append]

theorem decValue_decChars (n : Nat) : decValue (decChars n) = n := by
  induction n using Nat.strong_induction_on with
  | _ n ih =>
    rw [decChars]
    by_cases h10 : n < 10
    · simp only [h10, dite_true]
      simp [decValue, digitChar_val n h10]
    · simp only [h10, dite_false]
      rw [decValue_append, ih (n / 10) (Nat.div_lt_self (by omega) (by omega)),
        digitChar_val (n % 10) (Nat.mod_lt n (by omega))]
      omega

theorem decChars_inj {m n : Nat} (h : decChars m = decChars n) : m = n := by
  have h' := congrArg decValue h
  rwa [decValue_decChars, decValue_decChars] at h'

theorem asString_inj {l₁ l₂ : List Char} (h : l₁.asString = l₂.asString) :
    l₁ = l₂ :=
  congrArg String.data h

theorem repr_eq_decChars (n : Nat) : Nat.repr n = (decChars n).asString := by
  show (Nat.toDigits 10 n).asString = _
  rw [Nat.toDigits, toDigitsCore_eq_decChars (n + 1) n [] (Nat.lt_succ_self n),
    List.append_nil]

theorem natRepr_inj {m n : Nat} (h : Nat.repr m = Nat.repr n) : m = n := by
  rw [repr_eq_decChars, repr_eq_decChars] at h
  exact decChars_inj (asString_inj h)

/-- Temp ids collide exactly when the millisecond clock readings coincide. -/
theorem tempIdOf_inj {m n : Nat} (h : tempIdOf m = tempIdOf n) : m = n := by
  have hd := congrArg String.data h
  simp only [tempIdOf, String.data_append] at hd
  exact natRepr_inj (String.ext (List.append_cancel_left hd))

/-! ## Properties of the stable sort -/

theorem insertByTime_perm (a : DisplayMessage) (l : List DisplayMessage) :
    insertByTime a l ~ a :: l := by
  induction l with
  | nil => exact List.Perm.refl _
  | cons b l ih =>
    simp only [insertByTime]
    split
    · exact List.Perm.refl _
    · exact (ih.cons b).trans (List.Perm.swap a b l)

theorem sortByTime_perm (l : List DisplayMessage) : sortByTime l ~ l := by
  induction l with
  | nil => exact List.Perm.refl _
  | cons a l ih =>
    exact (insertByTime_perm a (sortByTime l)).trans (ih.cons a)

theorem mem_insertByTime {x a : DisplayMessage} {l : List DisplayMessage} :
    x ∈ insertByTime a l ↔ x = a ∨ x ∈ l := by
  rw [(insertByTime_perm a l).mem_iff, List.mem_cons]

theorem mem_sortByTime {x : DisplayMessage} {l : List DisplayMessage} :
    x ∈ sortByTime l ↔ x ∈ l :=
  (sortByTime_perm l).mem_iff

theorem pairwise_insertByTime {a : DisplayMessage} {l : List DisplayMessage}
    (h : l.Pairwise (fun x y => x.sent ≤ y.sent)) :
    (insertByTime a l).Pairwise (fun x y => x.sent ≤ y.sent) := by
  induction l with
  | nil => simp [insertByTime]
  | cons b l ih =>
    rcases List.pairwise_cons.mp h with ⟨hb, hl⟩
    simp only [insertByTime]
    split
    · next hab =>
      refine List.pairwise_cons.mpr ⟨?_, h⟩
      intro y hy
      rcases List.mem_cons.mp hy with rfl | hy
      · exact hab
      · exact Nat.le_trans hab (hb y hy)
    · next hab =>
      refine List.pairwise_cons.mpr ⟨?_, ih hl⟩
      intro y hy
      rcases mem_insertByTime.mp hy with rfl | hy
      · exact Nat.le_of_not_le hab
      · exact hb y hy

theorem pairwise_sortByTime (l : List DisplayMessage) :
    (sortByTime l).Pairwise (fun x y => x.sent ≤ y.sent) := by
  induction l with
  | nil => simp [sortByTime]
  | cons a l ih => exact pairwise_insertByTime ih

theorem self_sublist_insertByTime (a : DisplayMessage)
    (l : List DisplayMessage) : l <+ insertByTime a l := by
  induction l with
  | nil => simp [insertByTime]
  | cons b l ih =>
    simp only [insertByTime]
    split
    · exact List.sublist_cons_self a (b :: l)
    · exact List.Sublist.cons₂ b ih

theorem sublist_insertByTime {s t : List DisplayMessage}
    (a : DisplayMessage) (h : s <+ t) : s <+ insertByTime a t :=
  h.trans (self_sublist_insertByTime a t)

theorem pair_sublist_insertByTime {a b : DisplayMessage}
    {t : List DisplayMessage} (hb : b ∈ t) (hab : a.sent ≤ b.sent) :
    [a, b] <+ insertByTime a t := by
  induction t with
  | nil => cases hb
  | cons c l ih =>
    simp only [insertByTime]
    split
    · next hac =>
      exact List.Sublist.cons₂ a (List.singleton_sublist.mpr hb)
    · next hac =>
      rcases List.mem_cons.mp hb with rfl | hbl
      · exact absurd hab hac
      · exact List.Sublist.cons c (ih hbl)

/-- Stability of `sortByTime`: a pair already in timestamp order in the input
keeps its relative order in the output. -/
theorem pair_sublist_sortByTime {a b : DisplayMessage}
    {l : List DisplayMessage} (hab : a.sent ≤ b.sent) (h : [a, b] <+ l) :
    [a, b] <+ sortByTime l := by
  induction l with
  | nil => cases h
  | cons c l ih =>
    cases h with
    | cons _ h => exact sublist_insertByTime c (ih h)
    | cons₂ _ h =>
      exact pair_sublist_insertByTime
        (mem_sortByTime.mpr (List.singleton_sublist.mp h)) hab

/-! ## Facts about the operations -/

/-- A send invocation that passes the guard returns the temp id derived from
its `Date.now()` reading. -/
theorem sendMessage_id {s : MessageState} {now : Nat} {ok : Bool}
    {f : List ConfirmedMessage} {tid : String} {s' : MessageState}
    (h : sendMessage s now ok f = some (tid, s')) : tid = tempIdOf now := by
  unfold sendMessage sendStart at h
  rcases hg : (s.activeConversation.isNone || isBlank s.messageContent ||
      s.isSending) with _ | _ <;> rw [hg] at h <;> simp at h
  exact h.1.symm

/-! ## The claims -/

/-- C1, counterexample.  In `sC1` the failed pending message `pHi` has the
same `(content, senderAddress)` as the confirmed message `cHi`, whose `sent`
(100) is at least the pending `sentAt` (50); the claim then demands exactly
one view entry for that logical message, but the merged view holds two, so
the pending entry was not excluded from the merge. -/
theorem c1_matching_pending_not_excluded :
    ((allMessages sC1).filter
      (fun d => d.content == "hi" && d.senderAddress == "alice")).length = 2 ∧
    sC1.conversationMessages.any (fun c =>
      c.content == "hi" && c.senderAddress == "alice" &&
        decide (50 ≤ c.sent)) = true := by
  decide

/-- C1, amended.  The merge applies no `(content, senderAddress)`
deduplication at all: the view always holds one entry per confirmed message
plus one per pending message.  Instead, a history refresh removes from the
pending set exactly the messages with status `published` (see C10), so after
a refresh a published pending message is represented only by its confirmed
counterpart, while unpublished or failed pending messages stay in the view
even beside a matching confirmed entry. -/
theorem c1_amended_no_dedup_refresh_purges_published (s : MessageState)
    (f : List ConfirmedMessage) :
    (allMessages s).length
        = s.conversationMessages.length + s.optimisticMessages.length ∧
    (∀ d ∈ allMessages (loadMessages s f),
      d.status ≠ some MsgStatus.published) := by
  constructor
  · rw [allMessages, (sortByTime_perm _).length_eq, displayInput,
      List.length_append, List.length_map, List.length_map]
  · intro d hd
    have hd' : d ∈ displayInput (loadMessages s f) := mem_sortByTime.mp hd
    rw [displayInput] at hd'
    rcases List.mem_append.mp hd' with h | h
    · rcases List.mem_map.mp h with ⟨c, _, rfl⟩
      simp [confirmedToDisplay]
    · rcases List.mem_map.mp h with ⟨m, hm, rfl⟩
      have hs := (List.mem_filter.mp hm).2
      simp only [optimisticToDisplay, ne_eq, Option.some.injEq]
      simpa [bne_iff_ne] using hs

/-- C2, counterexample.  `sC2` holds two confirmed messages with equal
timestamps whose ids are `"m-b"` before `"m-a"` in the history.  The merged
view keeps that (stable) order, although `"m-a"` precedes `"m-b"` lexically,
so timestamp ties are not broken by lexical order of the identifier. -/
theorem c2_tie_order_not_lexical :
    (allMessages sC2).map (fun d => d.id) = ["m-b", "m-a"] ∧
    "m-a".data < "m-b".data := by
  decide

/-- C2, amended.  The merged view is sorted by timestamp ascending, and the
sort is stable: any pair already in timestamp order in the underlying
concatenation (confirmed history in its own order, then the pending
messages in insertion order) keeps its relative order; in particular, at
timestamp ties confirmed entries precede pending ones, but ids play no
role in the order. -/
theorem c2_amended_sorted_stably (s : MessageState) (a b : DisplayMessage)
    (hab : a.sent ≤ b.sent) (hsub : [a, b] <+ displayInput s) :
    (allMessages s).Pairwise (fun x y => x.sent ≤ y.sent) ∧
    [a, b] <+ allMessages s :=
  ⟨pairwise_sortByTime _, pair_sublist_sortByTime hab hsub⟩

/-- C2, witness: the amended theorem applied to `sC2` and its two display
entries. -/
theorem c2_amended_sorted_stably_witness :
    (allMessages sC2).Pairwise (fun x y => x.sent ≤ y.sent) ∧
    [confirmedToDisplay cB2, confirmedToDisplay cA2] <+ allMessages sC2 :=
  c2_amended_sorted_stably sC2 (confirmedToDisplay cB2)
    (confirmedToDisplay cA2) (by decide) (by decide)

/-- C3, counterexample.  Switching `sC3` to a fresh conversation `2` whose
history is empty keeps the previous conversation's failed pending message in
the pending set and in the merged view: the pending set is not reset to
empty. -/
theorem c3_pending_survives_switch :
    (createNewDM sC3 2 []).optimisticMessages = [pFailed3] ∧
    optimisticToDisplay pFailed3 ∈ allMessages (createNewDM sC3 2 []) := by
  decide

/-- C3, amended.  Attaching a new conversation replaces the confirmed
sequence with the new conversation's fetched history and filters only
`published` messages out of the pending set; pending messages with status
`unpublished` or `failed` from the previous conversation remain in the
pending set and in the merged view. -/
theorem c3_amended_switch_keeps_unpublished_failed (s : MessageState)
    (conv : Nat) (f : List ConfirmedMessage) :
    (createNewDM s conv f).conversationMessages = f ∧
    (createNewDM s conv f).activeConversation = some conv ∧
    (∀ m, m ∈ (createNewDM s conv f).optimisticMessages ↔
      m ∈ s.optimisticMessages ∧ m.status ≠ MsgStatus.published) ∧
    (∀ m ∈ s.optimisticMessages, m.status ≠ MsgStatus.published →
      optimisticToDisplay m ∈ allMessages (createNewDM s conv f)) := by
  refine ⟨rfl, rfl, ?_, ?_⟩
  · intro m
    simp [createNewDM, loadMessages, List.mem_filter, bne_iff_ne]
  · intro m hm hst
    rw [allMessages, mem_sortByTime, displayInput]
    refine List.mem_append_right _ (List.mem_map_of_mem _ ?_)
    simp only [createNewDM, loadMessages]
    exact List.mem_filter.mpr ⟨hm, by simpa [bne_iff_ne] using hst⟩

/-- C4.  A send whose transport call fails leaves a pending message with the
generated temp id, status `failed` and the original content in the pending
set, and that message is visible in the merged view: a failed send is never
silently dropped. -/
theorem c4_failed_send_visible (s : MessageState) (now : Nat)
    (f : List ConfirmedMessage) (hconv : s.activeConversation.isSome = true)
    (hcontent : isBlank s.messageContent = false)
    (hsending : s.isSending = false) :
    ∃ s', sendMessage s now false f = some (tempIdOf now, s') ∧
      (∃ m, m ∈ s'.optimisticMessages ∧ m.id = tempIdOf now ∧
        m.status = MsgStatus.failed ∧ m.content = s.messageContent) ∧
      (∃ d, d ∈ allMessages s' ∧ d.id = tempIdOf now ∧
        d.status = some MsgStatus.failed ∧ d.content = s.messageContent) := by
  have hnone : s.activeConversation.isNone = false := by
    rcases h : s.activeConversation with _ | c
    · rw [h] at hconv; simp at hconv
    · rfl
  have hstart : sendStart s now = some (tempIdOf now,
      { s with
        isSending := true,
        optimisticMessages := s.optimisticMessages ++
          [{ id := tempIdOf now, content := s.messageContent,
             senderAddress := s.accountIdentifier.getD "",
             status := MsgStatus.unpublished, sentAt := now }],
        messageContent := "" }) := by
    unfold sendStart
    rw [hnone, hcontent, hsending]
    rfl
  have hmsg : sendMessage s now false f = some (tempIdOf now,
      { s with
        isSending := false,
        optimisticMessages :=
          markStatus (s.optimisticMessages ++
            [{ id := tempIdOf now, content := s.messageContent,
               senderAddress := s.accountIdentifier.getD "",
               status := MsgStatus.unpublished, sentAt := now }])
            (tempIdOf now) MsgStatus.failed,
        messageContent := "" }) := by
    unfold sendMessage
    rw [hstart]
    rfl
  refine ⟨_, hmsg, ?_, ?_⟩
  · refine ⟨⟨tempIdOf now, s.messageContent, s.accountIdentifier.getD "",
      MsgStatus.failed, now⟩, ?_, rfl, rfl, rfl⟩
    rw [markStatus, List.map_append]
    refine List.mem_append_right _ ?_
    simp [markStatus]
  · refine ⟨optimisticToDisplay ⟨tempIdOf now, s.messageContent,
      s.accountIdentifier.getD "", MsgStatus.failed, now⟩, ?_, rfl, rfl, rfl⟩
    rw [allMessages, mem_sortByTime, displayInput]
    refine List.mem_append_right _ (List.mem_map_of_mem _ ?_)
    rw [markStatus, List.map_append]
    refine List.mem_append_right _ ?_
    simp [markStatus]

/-- C4, witness: the theorem at `sC4`, time 5, with failing transport. -/
theorem c4_failed_send_visible_witness :
    ∃ s', sendMessage sC4 5 false [] = some (tempIdOf 5, s') ∧
      (∃ m, m ∈ s'.optimisticMessages ∧ m.id = tempIdOf 5 ∧
        m.status = MsgStatus.failed ∧ m.content = sC4.messageContent) ∧
      (∃ d, d ∈ allMessages s' ∧ d.id = tempIdOf 5 ∧
        d.status = some MsgStatus.failed ∧ d.content = sC4.messageContent) :=
  c4_failed_send_visible sC4 5 [] (by decide) (by decide) rfl

/-- C5, counterexample.  `cancelFailedMessage` on the id of an unpublished
(not failed) pending message removes it from the pending set, although the
claim says cancel must fail with `InvalidState` and not remove it unless the
message is failed. -/
theorem c5_cancel_removes_unpublished :
    pUnpub5.status = MsgStatus.unpublished ∧
    (cancelFailedMessage sC5 "optimistic-9").optimisticMessages = [] := by
  decide

/-- C5, amended.  `cancelFailedMessage(localId)` removes the pending message
with that id from the pending set unconditionally, whatever its status, and
raises no error; afterwards any view entry still carrying that id comes from
the confirmed history.  The restriction of cancel to failed messages exists
only in the rendering, which offers the cancel control on failed entries
alone. -/
theorem c5_amended_cancel_unconditional (s : MessageState) (mid : String) :
    (∀ m, m ∈ (cancelFailedMessage s mid).optimisticMessages ↔
      m ∈ s.optimisticMessages ∧ m.id ≠ mid) ∧
    (∀ d ∈ allMessages (cancelFailedMessage s mid), d.id = mid →
      d.status = none) := by
  constructor
  · intro m
    simp [cancelFailedMessage, List.mem_filter, bne_iff_ne]
  · intro d hd hid
    have hd' : d ∈ displayInput (cancelFailedMessage s mid) :=
      mem_sortByTime.mp hd
    rw [displayInput] at hd'
    rcases List.mem_append.mp hd' with h | h
    · rcases List.mem_map.mp h with ⟨c, _, rfl⟩
      rfl
    · rcases List.mem_map.mp h with ⟨m, hm, rfl⟩
      have hne : m.id ≠ mid := by
        simpa [bne_iff_ne] using (List.mem_filter.mp hm).2
      exact absurd hid hne

/-- C6, counterexample.  In `sC6` no failed pending message with id
`"optimistic-3"` exists (the only pending message with that id is
unpublished), so the claim demands the retry fail with `NotFound`; instead
`retryFailedMessage` proceeds: it re-attempts the send and, on transport
failure, leaves the message failed — the state is mutated, not rejected. -/
theorem c6_retry_without_failed_message_proceeds :
    (¬ ∃ m, m ∈ sC6.optimisticMessages ∧ m.status = MsgStatus.failed) ∧
    (retryFailedMessage sC6 "optimistic-3" false []).optimisticMessages
      = [{ pUnpub6 with status := MsgStatus.failed }] := by
  decide

/-- C6, amended.  `retryFailedMessage(localId)` is a silent no-op (not a
`NotFound` error) when no pending message with that id exists or no
conversation is active; when a pending message with that id exists — of any
status, not only failed — it is re-sent in place: after a failing retry the
pending set has the same length and still holds a message with that id,
now with status `failed`; no second entry is created. -/
theorem c6_amended_retry_in_place (s : MessageState) (mid : String)
    (f : List ConfirmedMessage) :
    ((s.optimisticMessages.find? (fun m => m.id == mid) = none ∨
        s.activeConversation = none) →
      retryFailedMessage s mid false f = s ∧
      retryFailedMessage s mid true f = s) ∧
    ((∃ p, p ∈ s.optimisticMessages ∧ p.id = mid) →
      s.activeConversation ≠ none →
      (retryFailedMessage s mid false f).optimisticMessages.length
          = s.optimisticMessages.length ∧
      (∃ m, m ∈ (retryFailedMessage s mid false f).optimisticMessages ∧
        m.id = mid ∧ m.status = MsgStatus.failed)) := by
  constructor
  · rintro (hfind | hact)
    · constructor <;> simp [retryFailedMessage, hfind]
    · rcases hfq : s.optimisticMessages.find? (fun m => m.id == mid)
        with _ | q
      · constructor <;> simp [retryFailedMessage, hfq]
      · constructor <;> simp [retryFailedMessage, hfq, hact]
  · rintro ⟨p, hp, hpid⟩ hact
    have hqex : s.optimisticMessages.find? (fun m => m.id == mid) ≠ none := by
      rw [Ne, List.find?_eq_none]
      push_neg
      exact ⟨p, hp, by simp [hpid]⟩
    rcases Option.ne_none_iff_exists'.mp hqex with ⟨q, hq⟩
    have hisNone : s.activeConversation.isNone = false := by
      rcases h : s.activeConversation with _ | c
      · exact absurd h hact
      · rfl
    have hretry : (retryFailedMessage s mid false f).optimisticMessages
        = markStatus (markStatus s.optimisticMessages mid
            MsgStatus.unpublished) mid MsgStatus.failed := by
      simp [retryFailedMessage, hq, hisNone]
    rw [hretry]
    constructor
    · simp [markStatus]
    · refine ⟨{ p with status := MsgStatus.failed }, ?_, hpid, rfl⟩
      have h1 : ({ p with status := MsgStatus.unpublished } :
          OptimisticMessage)
          ∈ markStatus s.optimisticMessages mid MsgStatus.unpublished := by
        have h0 := List.mem_map_of_mem (fun m =>
          if m.id == mid then { m with status := MsgStatus.unpublished }
          else m) hp
        rw [markStatus]
        simpa [hpid] using h0
      have h2 := List.mem_map_of_mem (fun m =>
        if m.id == mid then { m with status := MsgStatus.failed } else m) h1
      rw [markStatus]
      simpa [hpid] using h2

/-- C6, witness: the amended theorem at `sC6` with id `"optimistic-3"`. -/
theorem c6_amended_retry_in_place_witness :
    ((sC6.optimisticMessages.find? (fun m => m.id == "optimistic-3") = none ∨
        sC6.activeConversation = none) →
      retryFailedMessage sC6 "optimistic-3" false [] = sC6 ∧
      retryFailedMessage sC6 "optimistic-3" true [] = sC6) ∧
    ((∃ p, p ∈ sC6.optimisticMessages ∧ p.id = "optimistic-3") →
      sC6.activeConversation ≠ none →
      (retryFailedMessage sC6 "optimistic-3" false
          []).optimisticMessages.length
          = sC6.optimisticMessages.length ∧
      (∃ m, m ∈ (retryFailedMessage sC6 "optimistic-3" false
          []).optimisticMessages ∧
        m.id = "optimistic-3" ∧ m.status = MsgStatus.failed)) :=
  c6_amended_retry_in_place sC6 "optimistic-3" []

/-- C7, counterexample.  Two complete send invocations in one session — the
second starting from the state the first returned, with new content typed —
both read `Date.now() = 100` and return the SAME localId: the temp id is
derived from the clock value alone, so rapid sends within one millisecond
reuse it. -/
theorem c7_localId_reused :
    ∃ tid s1 tid2 s2,
      sendMessage sC7 100 true [] = some (tid, s1) ∧
      sendMessage { s1 with messageContent := "b" } 100 true []
        = some (tid2, s2) ∧
      tid = tid2 :=
  ⟨_, _, _, _, rfl, rfl, rfl⟩

/-- C7, amended.  The localId of a send is `optimistic-` followed by its
`Date.now()` reading in decimal, so two send invocations whose clock
readings differ receive distinct localIds; only sends falling in the same
millisecond share one. -/
theorem c7_amended_distinct_times_distinct_ids
    {s t : MessageState} {n n' : Nat} {ok ok' : Bool}
    {f f' : List ConfirmedMessage} {tid tid' : String}
    {s1 t1 : MessageState}
    (hne : n ≠ n')
    (h1 : sendMessage s n ok f = some (tid, s1))
    (h2 : sendMessage t n' ok' f' = some (tid', t1)) :
    tid ≠ tid' := by
  intro he
  exact hne (tempIdOf_inj
    ((sendMessage_id h1).symm.trans (he.trans (sendMessage_id h2))))

/-- C7, witness: the amended theorem on two sends at times 100 and 101. -/
theorem c7_amended_distinct_times_distinct_ids_witness :
    tempIdOf 100 ≠ tempIdOf 101 :=
  c7_amended_distinct_times_distinct_ids (by decide)
    (show sendMessage sC7 100 true [] = some (tempIdOf 100,
      { conversationMessages := [], optimisticMessages := [],
        activeConversation := some 1, messageContent := "",
        accountIdentifier := some "alice", isSending := false }) from rfl)
    (show sendMessage sC7 101 true [] = some (tempIdOf 101,
      { conversationMessages := [], optimisticMessages := [],
        activeConversation := some 1, messageContent := "",
        accountIdentifier := some "alice", isSending := false }) from rfl)

/-- C8.  When the draft content is blank (all whitespace, so
`messageContent.trim()` is falsy) or a send is already in flight
(`isSending`), the send is rejected: `sendStart` returns `none`, so no
pending message is inserted, and the rejection is independent of the
transport oracle — no transport send is attempted. -/
theorem c8_send_guard (s : MessageState) (now : Nat)
    (h : isBlank s.messageContent = true ∨ s.isSending = true) :
    sendStart s now = none ∧
    ∀ (ok : Bool) (f : List ConfirmedMessage),
      sendMessage s now ok f = none := by
  have hs : sendStart s now = none := by
    unfold sendStart
    rcases h with h | h <;> rw [h] <;> simp
  refine ⟨hs, fun ok f => ?_⟩
  unfold sendMessage
  rw [hs]

/-- C8, witness: blank content at `sC8blank`, in-flight send at
`sC8sending`. -/
theorem c8_send_guard_witness :
    (sendStart sC8blank 0 = none ∧
      ∀ (ok : Bool) (f : List ConfirmedMessage),
        sendMessage sC8blank 0 ok f = none) ∧
    (sendStart sC8sending 1 = none ∧
      ∀ (ok : Bool) (f : List ConfirmedMessage),
        sendMessage sC8sending 1 ok f = none) :=
  ⟨c8_send_guard sC8blank 0 (Or.inl (by decide)),
    c8_send_guard sC8sending 1 (Or.inr rfl)⟩

/-- C9.  The stream handler is idempotent by message id: delivering the same
confirmed message twice to a state that does not yet hold its id leaves
exactly one confirmed message with that id, and the merged view holds
exactly one entry with that id. -/
theorem c9_stream_idempotent (s : MessageState) (m : ConfirmedMessage)
    (hc : ∀ c ∈ s.conversationMessages, ¬ c.id = m.id)
    (hp : ∀ p ∈ s.optimisticMessages, ¬ p.id = m.id) :
    ((streamDeliver (streamDeliver s m) m).conversationMessages.countP
      (fun c => c.id == m.id)) = 1 ∧
    ((allMessages (streamDeliver (streamDeliver s m) m)).countP
      (fun d => d.id == m.id)) = 1 := by
  have hany₁ : s.conversationMessages.any (fun c => c.id == m.id) = false := by
    rw [List.any_eq_false]
    intro c hcm
    simpa using hc c hcm
  have hany₂ : s.optimisticMessages.any (fun p => p.id == m.id) = false := by
    rw [List.any_eq_false]
    intro p hpm
    simpa using hp p hpm
  have h1 : streamDeliver s m
      = { s with conversationMessages := s.conversationMessages ++ [m] } := by
    unfold streamDeliver
    rw [hany₁, hany₂]
    rfl
  have h2 : streamDeliver (streamDeliver s m) m = streamDeliver s m := by
    rw [h1]
    unfold streamDeliver
    have ha : ((s.conversationMessages ++ [m]).any
        (fun c => c.id == m.id)) = true := by
      simp
    simp [ha]
  have hz : s.conversationMessages.countP (fun c => c.id == m.id) = 0 := by
    rw [List.countP_eq_zero]
    intro c hcm
    simpa using hc c hcm
  have hzp : s.optimisticMessages.countP (fun p => p.id == m.id) = 0 := by
    rw [List.countP_eq_zero]
    intro p hpm
    simpa using hp p hpm
  rw [h2, h1]
  constructor
  · rw [List.countP_append, hz]
    simp [List.countP_cons]
  · rw [allMessages, (sortByTime_perm _).countP_eq, displayInput]
    rw [List.countP_append, List.countP_map, List.countP_map]
    have e1 : (s.conversationMessages ++ [m]).countP
        ((fun d => d.id == m.id) ∘ confirmedToDisplay)
        = (s.conversationMessages ++ [m]).countP (fun c => c.id == m.id) :=
      List.countP_congr (fun c _ => by simp [confirmedToDisplay])
    have e2 : s.optimisticMessages.countP
        ((fun d => d.id == m.id) ∘ optimisticToDisplay)
        = s.optimisticMessages.countP (fun p => p.id == m.id) :=
      List.countP_congr (fun p _ => by simp [optimisticToDisplay])
    rw [e1, e2, hzp, List.countP_append, hz]
    simp [List.countP_cons]

/-- C9, witness: the theorem at `sC9` with the streamed message `mC9`. -/
theorem c9_stream_idempotent_witness :
    ((streamDeliver (streamDeliver sC9 mC9) mC9).conversationMessages.countP
      (fun c => c.id == mC9.id)) = 1 ∧
    ((allMessages (streamDeliver (streamDeliver sC9 mC9) mC9)).countP
      (fun d => d.id == mC9.id)) = 1 :=
  c9_stream_idempotent sC9 mC9 (by decide) (by decide)

/-- C10.  After any history refresh, whatever history was fetched — in
particular whether or not it contains a match for a pending message — the
pending set holds no message with status `published`: every published
pending message is removed unconditionally, and every other pending message
is retained. -/
theorem c10_refresh_purges_published (s : MessageState)
    (f : List ConfirmedMessage) :
    (∀ m ∈ (loadMessages s f).optimisticMessages,
      m.status ≠ MsgStatus.published) ∧
    (∀ m ∈ s.optimisticMessages, m.status = MsgStatus.published →
      m ∉ (loadMessages s f).optimisticMessages) ∧
    (∀ m ∈ s.optimisticMessages, m.status ≠ MsgStatus.published →
      m ∈ (loadMessages s f).optimisticMessages) := by
  refine ⟨?_, ?_, ?_⟩
  · intro m hm
    simpa [bne_iff_ne] using (List.mem_filter.mp hm).2
  · intro m _ hst hmem
    exact absurd hst (by simpa [bne_iff_ne] using (List.mem_filter.mp hmem).2)
  · intro m hm hst
    exact List.mem_filter.mpr ⟨hm, by simpa [bne_iff_ne] using hst⟩
